import Mathlib

/-!
Verification of the weblate-supplementary-scripts repository.

The repository consists of two near-duplicate Python scripts:
  * `src/binary/increment_version.py`          (namespace `Binary` below)
  * `src/repo-resources/increment_version.py`  (namespace `RepoResources` below)

Both scripts manipulate plain text: they classify changed-file paths, parse a
version out of a manifest with the regex `<addon.+?version="([0-9.]+)"`
(DOTALL), increment the micro component, patch the manifest by literal
substring replacement, and prepend changelog / news entries.

Strings are embedded through their character lists (`String.toList`), and the
Python primitives used by the scripts (`str.split`, `str.replace`, `in`,
`str.endswith`, `int`, `str.strip`, `os.path.split`, `sorted`, `re.search`
for the one fixed pattern) are modelled explicitly below.  File effects of the
two `main` drivers are modelled as event traces (reads, writes, prints) over
an environment supplying the file contents; filesystem discovery (`os.walk`)
is abstracted into that environment.  Print statements that embed filesystem
paths are not part of the traces; the claim-relevant messages are.
-/

/-! ## Python string primitives, modelled on character lists -/

/-- `startsWithL s pat` : `s` begins with `pat` (character-wise). -/
def startsWithL : List Char → List Char → Bool
  | _, [] => true
  | [], _ :: _ => false
  | a :: as, b :: bs => a = b && startsWithL as bs

/-- Index of the first occurrence of `pat` in `s` (leftmost scan), as Python
`str.find` would report it. -/
def findSub : List Char → List Char → Option Nat
  | [], pat => if pat.isEmpty then some 0 else none
  | s@(_ :: rest), pat =>
    if startsWithL s pat then some 0 else (findSub rest pat).map (· + 1)

/-- Fuelled worker for `splitOnL`; fuel `s.length + 1` always suffices. -/
def splitOnFuel (sep : List Char) : Nat → List Char → List (List Char)
  | 0, s => [s]
  | fuel + 1, s =>
    match findSub s sep with
    | none => [s]
    | some i => s.take i :: splitOnFuel sep fuel (s.drop (i + sep.length))

/-- Python `s.split(sep)` for a nonempty separator: leftmost, non-overlapping,
keeping empty parts. -/
def splitOnL (s sep : List Char) : List (List Char) :=
  if sep.isEmpty then [s] else splitOnFuel sep (s.length + 1) s

/-- Python `s.replace(old, new)` (all occurrences, leftmost, non-overlapping). -/
def replaceAllL (s old new : List Char) : List Char :=
  List.intercalate new (splitOnL s old)

/-- Python `sub in s` (substring containment). -/
def pyIn (sub s : String) : Bool := (findSub s.toList sub.toList).isSome

/-- Python `s.replace(old, new)` on `String`. -/
def pyReplace (s old new : String) : String :=
  (replaceAllL s.toList old.toList new.toList).asString

/-- Python `s.endswith(suffix)`. -/
def pyEndsWith (s suffix : String) : Bool :=
  startsWithL s.toList.reverse suffix.toList.reverse

/-! ## Python `int` on strings

`int(s)` strips surrounding whitespace, allows one optional sign, and then a
nonempty digit sequence in which single underscores may separate digits.
(Non-ASCII digits, also accepted by CPython, never occur in the version
strings handled here and are not modelled.) -/

/-- Digit sequence with optional single underscores strictly between digits. -/
def digitsUnd : List Char → Bool
  | [] => false
  | [c] => c.isDigit
  | c :: d :: rest =>
    c.isDigit && (if d = '_' then digitsUnd rest else digitsUnd (d :: rest))

/-- Numeric value of a digit list (most significant first). -/
def digitsVal (l : List Char) : Nat :=
  l.foldl (fun a c => a * 10 + (c.toNat - 48)) 0

/-- Value of a digits-and-underscores token. -/
def udVal (l : List Char) : Int :=
  (digitsVal (l.filter (fun c => !(c = '_'))) : Int)

/-- Python `s.strip()` (no argument): drop whitespace from both ends. -/
def pyStripL (cs : List Char) : List Char :=
  ((cs.dropWhile Char.isWhitespace).reverse.dropWhile Char.isWhitespace).reverse

/-- Python `int(s)`, returning `none` where CPython raises `ValueError`. -/
def pyParseIntL (cs : List Char) : Option Int :=
  match pyStripL cs with
  | [] => none
  | c :: rest =>
    if c = '+' then (if digitsUnd rest then some (udVal rest) else none)
    else if c = '-' then (if digitsUnd rest then some (-(udVal rest)) else none)
    else (if digitsUnd (c :: rest) then some (udVal (c :: rest)) else none)

/-! ## `os.path.split` and path segments -/

/-- Drop trailing `'/'` characters. -/
def dropTrailingSlashes (l : List Char) : List Char :=
  (l.reverse.dropWhile (fun c => c = '/')).reverse

/-- `os.path.split(p)` (posix): split at the last `'/'`; the head keeps no
trailing slashes unless it consists only of slashes. -/
def os_path_split (p : String) : String × String :=
  let cs := p.toList
  let tail := (cs.reverse.takeWhile (fun c => !(c = '/'))).reverse
  let head := cs.take (cs.length - tail.length)
  ((if head.all (fun c => c = '/') then head else dropTrailingSlashes head).asString,
   tail.asString)

/-- Python `folder.split('/')[-1]`. -/
def lastPathSeg (folder : String) : String :=
  ((splitOnL folder.toList ['/']).getLastD []).asString

/-- Python `folder.split('/')[0]`. -/
def firstPathSeg (folder : String) : String :=
  ((splitOnL folder.toList ['/']).headD []).asString

/-! ## Python `sorted` on strings (code-point lexicographic, ascending) -/

/-- Lexicographic `≤` on character lists by code point, as Python compares
strings. -/
def lexLe : List Char → List Char → Bool
  | [], _ => true
  | _ :: _, [] => false
  | a :: as, b :: bs =>
    if a.toNat = b.toNat then lexLe as bs else decide (a.toNat < b.toNat)

/-- `≤` on strings by code points. -/
def strLeB (a b : String) : Bool := lexLe a.toList b.toList

/-- Insert into a `strLeB`-sorted list, keeping it sorted. -/
def insertSorted (x : String) : List String → List String
  | [] => [x]
  | y :: ys => if strLeB x y then x :: y :: ys else y :: insertSorted x ys

/-- Python `sorted` on a list of strings (ascending; stable sorts agree on
string keys since equal keys are identical). -/
def pySorted (l : List String) : List String := l.foldr insertSorted []

/-! ## The version regex `<addon.+?version="([0-9.]+)"` (DOTALL)

`GET_VERSION.search` is modelled directly: the leftmost `<addon` from which,
after at least one arbitrary character, a `version="` literal follows whose
greedy `[0-9.]+` run is closed by `"`; the first such attribute after the
`<addon` is captured. -/

/-- `[0-9.]`. -/
def isVerChar (c : Char) : Bool := c.isDigit || c = '.'

/-- The greedy `[0-9.]+` capture, which must be followed by `'"'`. -/
def versionRun (cs : List Char) : Option (List Char) :=
  let run := cs.takeWhile isVerChar
  if run.isEmpty then none
  else
    match cs.drop run.length with
    | '"' :: _ => some run
    | _ => none

/-- Earliest `version="<run>"` occurrence in `cs` (the lazy `.+?` extends one
character at a time, i.e. every start offset is tried in order). -/
def findVersionAttr : List Char → Option (List Char)
  | [] => none
  | c :: rest =>
    if startsWithL (c :: rest) ("version=\"".toList) then
      match versionRun (List.drop 9 (c :: rest)) with
      | some run => some run
      | none => findVersionAttr rest
    else findVersionAttr rest

/-- `GET_VERSION.search(cs)`: leftmost `<addon` with a matching version
attribute at least one character later; returns the captured group. -/
def searchAddonVersion : List Char → Option (List Char)
  | [] => none
  | c :: rest =>
    if startsWithL (c :: rest) ("<addon".toList) then
      match findVersionAttr (List.drop 7 (c :: rest)) with
      | some run => some run
      | none => searchAddonVersion rest
    else searchAddonVersion rest

/-! ## `increment_version` (identical in both scripts)

```python
def increment_version(version):
    version = version.split('.')
    version[2] = str(int(version[2]) + 1)
    return '.'.join(version)
```

`none` models the uncaught `IndexError` (fewer than three components) or
`ValueError` (micro not an integer). -/

def increment_version (version : String) : Option String :=
  match (splitOnL version.toList ['.'])[2]? with
  | none => none
  | some micro =>
    match pyParseIntL micro with
    | none => none
    | some n =>
      some (List.intercalate ['.']
        ((splitOnL version.toList ['.']).set 2 (toString (n + 1)).toList)).asString

/-- `'version="{version}"'.format(version=v)`. -/
def version_attr (v : String) : String := "version=\"" ++ v ++ "\""

/-! ## `src/binary/increment_version.py` -/

namespace Binary

/-- File events and claim-relevant prints of the binary driver.  The single
`addon.xml.in` and `changelog.txt` found by `walk` are implicit. -/
inductive BEvent
  | print (s : String)
  | readAddonXml
  | writeAddonXml (content : String)
  | readChangelog
  | writeChangelog (content : String)
deriving DecidableEq

/-- The file contents the binary driver would find on disk; `os.walk`
discovery is abstracted into the two `found` flags. -/
structure BinEnv where
  addon_xml_found : Bool
  xml_content : String
  changelog_found : Bool
  changelog_content : String

/-- The `payload` list built by `is_po_modified`: the parent-folder name of
every changed file that contains `'resource.language.'` and ends with
`'strings.po'`. -/
def is_po_modified_payload (chg_files : List String) : List String :=
  chg_files.foldl
    (fun payload chg_file =>
      if pyIn "resource.language." chg_file && pyEndsWith chg_file "strings.po" then
        payload ++ [lastPathSeg (os_path_split chg_file).1]
      else payload)
    []

/-- `is_po_modified` returns `payload != []`. -/
def is_po_modified (chg_files : List String) : Bool :=
  !(is_po_modified_payload chg_files).isEmpty

/-- The prints `is_po_modified` performs (header plus one line per entry,
only when the payload is nonempty). -/
def is_po_modified_events (chg_files : List String) : List BEvent :=
  if (is_po_modified_payload chg_files).isEmpty then []
  else
    BEvent.print "Files were modified in the following languages:" ::
      (is_po_modified_payload chg_files).map (fun language => BEvent.print ("\t" ++ language))

/-- The `payload` list built by `modified_languages`: parent-folder names of
matched files with every `'resource.language.'` occurrence removed
(`str.replace`). -/
def modified_languages_payload (chg_files : List String) : List String :=
  chg_files.foldl
    (fun payload chg_file =>
      if pyIn "resource.language." chg_file && pyEndsWith chg_file "strings.po" then
        payload ++ [pyReplace (lastPathSeg (os_path_split chg_file).1) "resource.language." ""]
      else payload)
    []

/-- `', '.join(sorted(payload))`. -/
def modified_languages (chg_files : List String) : String :=
  String.intercalate ", " (pySorted (modified_languages_payload chg_files))

/-- `create_changelog_string(version, languages, add_date)`; the module-level
`TODAY` is passed explicitly. -/
def create_changelog_string (version languages : String) (add_date : Bool)
    (today : String) : String :=
  (if add_date then "v" ++ version ++ " (" ++ today ++ ")" else "v" ++ version) ++
    "\nTranslations updates from Weblate\n\t- " ++ languages ++ "\n\n"

/-- `update_changelog` at content level: the string it returns given the
current `changelog.txt` content. -/
def update_changelog (changelog_content version : String) (chg_files : List String)
    (add_date : Bool) (today : String) : String :=
  create_changelog_string version (modified_languages chg_files) add_date today ++
    changelog_content

/-- Writing `data` into a file opened without truncation at position `pos`
(bytes past the written region survive). -/
def fileWriteAt (file : List Char) (pos : Nat) (data : List Char) : List Char :=
  file.take pos ++ data ++ file.drop (pos + data.length)

/-- `write_changelog` at file level: open `'r+'`, read all, seek to 0, write
`contents + content`; returns the resulting file content. -/
def write_changelog (contents changelog_file : String) : String :=
  (fileWriteAt changelog_file.toList 0 (contents.toList ++ changelog_file.toList)).asString

/-- The insertion-and-cleanup core of `update_news` (lines 217–223), taking
the already-formatted entry: a global replace of `<news>` by
`<news>\n<entry>` followed by one replace-all pass of `\n\n\n` with `\n\n`. -/
def insert_news (xml_content entry : String) : String :=
  pyReplace (pyReplace xml_content "<news>" ("<news>\n" ++ entry)) "\n\n\n" "\n\n"

/-- `update_news(xml_content, version, chg_files, add_date)`. -/
def update_news (xml_content version : String) (chg_files : List String)
    (add_date : Bool) (today : String) : String :=
  insert_news xml_content (create_changelog_string version (modified_languages chg_files) add_date today)

/-- `current_version`: regex search, `''` when there is no match. -/
def current_version (xml_content : String) : String :=
  match searchAddonVersion xml_content.toList with
  | none => ""
  | some v => v.asString

/-- `update_xml_version`: literal substring replacement of the version
attribute; `''` signals that the text was unmodified. -/
def update_xml_version (xml_content old_version new_version : String) : String :=
  if xml_content = pyReplace xml_content (version_attr old_version) (version_attr new_version) then ""
  else pyReplace xml_content (version_attr old_version) (version_attr new_version)

/-- `main()` after argument parsing: `chg_files` is the decoded JSON list,
`env` the filesystem contents, the three flags are `-c`, `-d`, `-n`.  Returns
the process exit code and the event trace.  Exit code 1 stands both for the
explicit `exit(1)` calls and for a crash from an uncaught exception. -/
def main (jsonPath : String) (chg_files : List String) (env : BinEnv)
    (update_changelog_flag add_date update_news_flag : Bool) (today : String) :
    Nat × List BEvent :=
  if !(pyEndsWith jsonPath ".json") then
    (1, [BEvent.print "No valid argument provided, expected a path to changed files json."])
  else if !(is_po_modified chg_files) then
    (0, is_po_modified_events chg_files ++ [BEvent.print "No modified languages found."])
  else if !env.addon_xml_found then
    -- find_addon_xml() returned '' and read_addon_xml('') raises FileNotFoundError
    (1, is_po_modified_events chg_files)
  else
    match increment_version (current_version env.xml_content) with
    | none =>
      if current_version env.xml_content = "" then
        (1, is_po_modified_events chg_files ++
          [BEvent.readAddonXml, BEvent.print "Unable to determine the current version. exiting..."])
      else
        -- uncaught IndexError/ValueError inside increment_version
        (1, is_po_modified_events chg_files ++ [BEvent.readAddonXml])
    | some new_version =>
      if update_xml_version env.xml_content (current_version env.xml_content) new_version = "" then
        (1, is_po_modified_events chg_files ++
          [BEvent.readAddonXml, BEvent.print "Unable to update the current version in the addon.xml.in. exiting..."])
      else
        (0, is_po_modified_events chg_files ++
          [BEvent.readAddonXml,
           BEvent.writeAddonXml (update_xml_version env.xml_content (current_version env.xml_content) new_version)] ++
          (if update_changelog_flag && env.changelog_found then
            [BEvent.readChangelog,
             BEvent.writeChangelog (write_changelog
               (create_changelog_string new_version (modified_languages chg_files) add_date today)
               env.changelog_content)]
           else []) ++
          (if update_news_flag then
            [BEvent.writeAddonXml (update_news
              (update_xml_version env.xml_content (current_version env.xml_content) new_version)
              new_version chg_files add_date today)]
           else []))

end Binary

/-! ## `src/repo-resources/increment_version.py` -/

namespace RepoResources

/-- File events and claim-relevant prints of the repo-resources driver; file
events carry the add-on folder they belong to. -/
inductive REvent
  | print (s : String)
  | readAddonXml (folder : String)
  | writeAddonXml (folder : String) (content : String)
  | readChangelog (folder : String)
  | writeChangelog (folder : String) (content : String)
deriving DecidableEq

/-- The `payload` list built by `get_addon_folders` before deduplication:
the first path segment of every changed file that contains
`'resource.language.'` and ends with `'strings.po'` or `'langinfo.xml'`. -/
def get_addon_folders_payload (chg_files : List String) : List String :=
  chg_files.foldl
    (fun payload chg_file =>
      if pyIn "resource.language." chg_file &&
          (pyEndsWith chg_file "strings.po" || pyEndsWith chg_file "langinfo.xml") then
        payload ++ [firstPathSeg (os_path_split chg_file).1]
      else payload)
    []

/-- `list(set(payload))`.  CPython's set iteration order is unspecified; the
first-occurrence order represents it faithfully up to permutation. -/
def get_addon_folders (chg_files : List String) : List String :=
  (get_addon_folders_payload chg_files).eraseDups

/-- The prints `get_addon_folders` performs (header printed unconditionally,
then one line per deduplicated add-on). -/
def get_addon_folders_events (chg_files : List String) : List REvent :=
  REvent.print "Files were modified in the following add-ons:" ::
    (get_addon_folders chg_files).map (fun addon => REvent.print ("\t" ++ addon))

/-- `create_changelog_string(version, add_date, bold_version)` of this
script; `TODAY` is passed explicitly. -/
def create_changelog_string (version : String) (add_date bold_version : Bool)
    (today : String) : String :=
  (if bold_version then
    "[B]" ++ (if add_date then "v" ++ version ++ " (" ++ today ++ ")" else "v" ++ version) ++ "[/B]"
   else (if add_date then "v" ++ version ++ " (" ++ today ++ ")" else "v" ++ version)) ++
    "\n- Translations updates from Weblate\n\n"

/-- The changelog prepend of `update_changelogs` (lines 138–141) at file
level: identical `r+`/`seek(0)` pattern as the binary script. -/
def update_changelogs_write (changelog_string changelog_file : String) : String :=
  (Binary.fileWriteAt changelog_file.toList 0
    (changelog_string.toList ++ changelog_file.toList)).asString

/-- Outcome of one iteration of the `update_addon_versions` loop on the
content of one `addon.xml`. -/
inductive RRStep
  | noVersion
  | incError
  | unmodified
  | write (s : String)
deriving DecidableEq

/-- One iteration of `update_addon_versions` (lines 199–227) on one
manifest's content. -/
def update_addon_versions_step (xml_content : String) : RRStep :=
  match searchAddonVersion xml_content.toList with
  | none => RRStep.noVersion
  | some old =>
    match increment_version old.asString with
    | none => RRStep.incError
    | some new_version =>
      if xml_content = pyReplace xml_content (version_attr old.asString) (version_attr new_version) then
        RRStep.unmodified
      else
        RRStep.write (pyReplace xml_content (version_attr old.asString) (version_attr new_version))

/-- The `update_addon_versions` loop over the add-on folders; `env` maps a
folder to its `addon.xml` content.  The `Bool` is true when the loop died
from an uncaught exception inside `increment_version`. -/
def update_addon_versions_events : List String → (String → String) → List REvent × Bool
  | [], _ => ([], false)
  | folder :: rest, env =>
    match update_addon_versions_step (env folder) with
    | RRStep.noVersion =>
      (REvent.readAddonXml folder ::
        REvent.print "Unable to determine current version... skipping." ::
        (update_addon_versions_events rest env).1,
       (update_addon_versions_events rest env).2)
    | RRStep.incError => ([REvent.readAddonXml folder], true)
    | RRStep.unmodified =>
      (REvent.readAddonXml folder ::
        REvent.print "XML was unmodified... skipping." ::
        (update_addon_versions_events rest env).1,
       (update_addon_versions_events rest env).2)
    | RRStep.write s =>
      (REvent.readAddonXml folder :: REvent.writeAddonXml folder s ::
        (update_addon_versions_events rest env).1,
       (update_addon_versions_events rest env).2)

/-- `main()` through the version-update phase: classification, the empty
no-op exit, and `update_addon_versions`.  The optional `-c`/`-n` phases are
modelled at unit level by `update_changelogs_write` and `Binary.insert_news`
(their loop shells repeat `update_addon_versions`' read-skip-write pattern);
no claim depends on their sequencing.  `jsonOk` is the `files_json` argparse
validation, whose failure exits with argparse's code 2. -/
def main (jsonOk : Bool) (chg_files : List String) (env : String → String) :
    Nat × List REvent :=
  if !jsonOk then (2, [])
  else if (get_addon_folders chg_files).isEmpty then
    (0, get_addon_folders_events chg_files ++ [REvent.print "No modified add-ons found."])
  else
    ((if (update_addon_versions_events (get_addon_folders chg_files) env).2 then 1 else 0),
     get_addon_folders_events chg_files ++
       (update_addon_versions_events (get_addon_folders chg_files) env).1)

end RepoResources

/-! ## Basic lemmas about the string model -/

theorem asString_toList (s : String) : s.toList.asString = s := rfl

theorem toList_asString (l : List Char) : l.asString.toList = l := rfl

theorem toList_append (a b : String) : (a ++ b).toList = a.toList ++ b.toList := rfl

theorem intercalate_singleton (new s : List Char) :
    List.intercalate new [s] = s := by
  simp [List.intercalate]

theorem intercalate_pair (new a b : List Char) :
    List.intercalate new [a, b] = a ++ new ++ b := by
  simp [List.intercalate, List.intersperse, List.append_assoc]

theorem intercalate_triple (new a b c : List Char) :
    List.intercalate new [a, b, c] = a ++ new ++ b ++ new ++ c := by
  simp [List.intercalate, List.intersperse, List.append_assoc]

theorem replaceAllL_no_occ (s old new : List Char) (hne : ¬ old.isEmpty)
    (h : findSub s old = none) : replaceAllL s old new = s := by
  unfold replaceAllL splitOnL
  rw [if_neg hne]
  unfold splitOnFuel
  rw [h]
  exact intercalate_singleton new s

theorem pyReplace_no_occ (s old new : String) (hne : ¬ old.toList.isEmpty)
    (h : pyIn old s = false) : pyReplace s old new = s := by
  have hf : findSub s.toList old.toList = none := by
    unfold pyIn at h
    cases hc : findSub s.toList old.toList with
    | none => rfl
    | some i => rw [hc] at h; simp at h
  unfold pyReplace
  rw [replaceAllL_no_occ _ _ _ hne hf]
  exact asString_toList s

/-- The imperative `payload.append` loop of the classifiers is
`filter`-then-`map`. -/
theorem foldl_payload (cond : String → Bool) (g : String → String) :
    ∀ (files acc : List String),
      files.foldl (fun payload f => if cond f then payload ++ [g f] else payload) acc
        = acc ++ (files.filter cond).map g := by
  intro files
  induction files with
  | nil => intro acc; simp
  | cons f rest ih =>
    intro acc
    by_cases h : cond f = true
    · simp only [List.foldl_cons, if_pos h, ih, List.filter_cons, h, ite_true, List.map_cons,
        List.append_assoc, List.singleton_append]
    · simp only [List.foldl_cons, if_neg h, ih, List.filter_cons, h, Bool.false_eq_true,
        ite_false]

/-! ## Lemmas about the `int` model on digit strings -/

theorem ws_not_digit {c : Char} (h : c.isWhitespace = true) : c.isDigit = false := by
  simp only [Char.isWhitespace, Bool.or_eq_true, decide_eq_true_eq] at h
  rcases h with ((h | h) | h) | h <;> subst h <;> decide

theorem isDigit_not_ws {c : Char} (h : c.isDigit = true) : c.isWhitespace = false := by
  cases hw : c.isWhitespace with
  | false => rfl
  | true => rw [ws_not_digit hw] at h; exact absurd h (by simp)

theorem dropWhile_eq_self_of_all (p : Char → Bool) (l : List Char)
    (h : ∀ x ∈ l, p x = false) : l.dropWhile p = l := by
  cases l with
  | nil => rfl
  | cons c cs =>
    rw [List.dropWhile_cons, h c (List.mem_cons_self c cs)]
    simp

theorem pyStripL_of_no_ws (l : List Char) (h : ∀ x ∈ l, x.isWhitespace = false) :
    pyStripL l = l := by
  unfold pyStripL
  rw [dropWhile_eq_self_of_all _ _ h,
    dropWhile_eq_self_of_all _ _ (fun x hx => h x (List.mem_reverse.mp hx)),
    List.reverse_reverse]

theorem digitsUnd_of_digits : ∀ (l : List Char), l ≠ [] → l.all Char.isDigit = true →
    digitsUnd l = true := by
  intro l
  induction l with
  | nil => intro h; exact absurd rfl h
  | cons c cs ih =>
    intro _ hall
    rw [List.all_cons, Bool.and_eq_true] at hall
    cases cs with
    | nil => simpa [digitsUnd] using hall.1
    | cons d ds =>
      have hd : d.isDigit = true := by
        have := hall.2
        rw [List.all_cons, Bool.and_eq_true] at this
        exact this.1
      have hdu : ¬ (d = '_') := by
        intro h
        subst h
        exact absurd hd (by decide)
      have hrec : digitsUnd (d :: ds) = true := ih (by simp) hall.2
      simp [digitsUnd, hall.1, hdu, hrec]

theorem filter_no_underscore {l : List Char} (hd : l.all Char.isDigit = true) :
    l.filter (fun c => !(c = '_')) = l := by
  rw [List.filter_eq_self]
  intro a ha
  rw [List.all_eq_true] at hd
  have : a.isDigit = true := hd a ha
  simp only [Bool.not_eq_true', decide_eq_false_iff_not]
  intro h
  subst h
  exact absurd this (by decide)

theorem pyParseIntL_digits (l : List Char) (hne : l ≠ []) (hd : l.all Char.isDigit = true) :
    pyParseIntL l = some (digitsVal l : Int) := by
  have hstrip : pyStripL l = l := by
    apply pyStripL_of_no_ws
    intro x hx
    rw [List.all_eq_true] at hd
    exact isDigit_not_ws (hd x hx)
  obtain ⟨c, cs, rfl⟩ := List.exists_cons_of_ne_nil hne
  have hc : c.isDigit = true := by
    rw [List.all_cons, Bool.and_eq_true] at hd
    exact hd.1
  have hplus : ¬ (c = '+') := by intro h; subst h; exact absurd hc (by decide)
  have hminus : ¬ (c = '-') := by intro h; subst h; exact absurd hc (by decide)
  unfold pyParseIntL
  rw [hstrip]
  simp only [hplus, hminus, if_false,
    digitsUnd_of_digits _ (by simp) hd, if_true, udVal, filter_no_underscore hd]

/-! ## Claim C1 -/

/-- Claim C1: for every version string with at least three dot-separated
components whose index-2 component is a decimal integer string,
`increment_version` splits on `'.'`, replaces the index-2 component by the
string form of that integer plus one, and rejoins with `'.'`, leaving all
other components unchanged (the `List.set 2` form); `"1.0.0" ↦ "1.0.1"` and
`"7.19.1" ↦ "7.19.2"`; the call fails with fewer than three components or a
non-integer index-2 component. -/
theorem c1_increment_version (v : String) :
    (∀ micro, (splitOnL v.toList ['.'])[2]? = some micro → micro ≠ [] →
      micro.all Char.isDigit = true →
      increment_version v = some (List.intercalate ['.']
        ((splitOnL v.toList ['.']).set 2 (toString ((digitsVal micro : Int) + 1)).toList)).asString) ∧
    ((splitOnL v.toList ['.']).length < 3 → increment_version v = none) ∧
    (∀ micro, (splitOnL v.toList ['.'])[2]? = some micro → pyParseIntL micro = none →
      increment_version v = none) ∧
    increment_version "1.0.0" = some "1.0.1" ∧
    increment_version "7.19.1" = some "7.19.2" := by
  refine ⟨?_, ?_, ?_, by decide, by decide⟩
  · intro micro h2 hne hdig
    simp only [increment_version, h2, pyParseIntL_digits micro hne hdig]
  · intro hlen
    unfold increment_version
    rw [List.getElem?_eq_none (by omega)]
  · intro micro h2 hp
    simp only [increment_version, h2, hp]

/-- Witness for C1 at the spec's own example `"7.19.1"`. -/
theorem c1_increment_version_witness :
    ((splitOnL ("7.19.1").toList ['.'])[2]? = some ['1'] ∧ ['1'].all Char.isDigit = true) ∧
    increment_version "7.19.1" = some (List.intercalate ['.']
      ((splitOnL ("7.19.1").toList ['.']).set 2 (toString ((digitsVal ['1'] : Int) + 1)).toList)).asString :=
  ⟨⟨by decide, by decide⟩,
   (c1_increment_version "7.19.1").1 ['1'] (by decide) (by decide) (by decide)⟩

/-! ## The `sorted` model is sorted -/

theorem lexLe_total : ∀ as bs : List Char, lexLe as bs = true ∨ lexLe bs as = true := by
  intro as
  induction as with
  | nil => intro bs; left; rfl
  | cons a as ih =>
    intro bs
    cases bs with
    | nil => right; rfl
    | cons b bs =>
      by_cases hab : a.toNat = b.toNat
      · rcases ih bs with h | h
        · left; simp only [lexLe]; rw [if_pos hab]; exact h
        · right; simp only [lexLe]; rw [if_pos hab.symm]; exact h
      · rcases Nat.lt_or_ge a.toNat b.toNat with hlt | hge
        · left; simp only [lexLe]; rw [if_neg hab]; exact decide_eq_true hlt
        · right; simp only [lexLe]; rw [if_neg (fun e => hab e.symm)]
          exact decide_eq_true (by omega)

theorem lexLe_trans : ∀ as bs cs : List Char,
    lexLe as bs = true → lexLe bs cs = true → lexLe as cs = true := by
  intro as
  induction as with
  | nil => intro bs cs _ _; rfl
  | cons a as ih =>
    intro bs cs h1 h2
    cases bs with
    | nil => exact absurd h1 (by simp [lexLe])
    | cons b bs =>
      cases cs with
      | nil => exact absurd h2 (by simp [lexLe])
      | cons c cs =>
        simp only [lexLe] at h1 h2 ⊢
        by_cases hab : a.toNat = b.toNat <;> by_cases hbc : b.toNat = c.toNat
        · rw [if_pos hab] at h1; rw [if_pos hbc] at h2
          rw [if_pos (hab.trans hbc)]
          exact ih bs cs h1 h2
        · rw [if_pos hab] at h1; rw [if_neg hbc] at h2
          have h2' : b.toNat < c.toNat := of_decide_eq_true h2
          rw [if_neg (by omega : ¬ a.toNat = c.toNat)]
          exact decide_eq_true (by omega)
        · rw [if_neg hab] at h1; rw [if_pos hbc] at h2
          have h1' : a.toNat < b.toNat := of_decide_eq_true h1
          rw [if_neg (by omega : ¬ a.toNat = c.toNat)]
          exact decide_eq_true (by omega)
        · rw [if_neg hab] at h1; rw [if_neg hbc] at h2
          have h1' : a.toNat < b.toNat := of_decide_eq_true h1
          have h2' : b.toNat < c.toNat := of_decide_eq_true h2
          rw [if_neg (by omega : ¬ a.toNat = c.toNat)]
          exact decide_eq_true (by omega)

theorem strLeB_total (a b : String) : strLeB a b = true ∨ strLeB b a = true :=
  lexLe_total a.toList b.toList

theorem strLeB_trans {a b c : String} (h1 : strLeB a b = true) (h2 : strLeB b c = true) :
    strLeB a c = true :=
  lexLe_trans a.toList b.toList c.toList h1 h2

theorem mem_insertSorted {x y : String} : ∀ {l : List String},
    y ∈ insertSorted x l → y = x ∨ y ∈ l := by
  intro l
  induction l with
  | nil =>
    intro h
    simp [insertSorted] at h
    exact Or.inl h
  | cons z zs ih =>
    intro h
    by_cases hx : strLeB x z = true
    · simp only [insertSorted, if_pos hx] at h
      rcases List.mem_cons.mp h with rfl | h'
      · exact Or.inl rfl
      · exact Or.inr h'
    · simp only [insertSorted, if_neg hx] at h
      rcases List.mem_cons.mp h with rfl | h'
      · exact Or.inr (List.mem_cons_self _ _)
      · rcases ih h' with h'' | h''
        · exact Or.inl h''
        · exact Or.inr (List.mem_cons_of_mem _ h'')

theorem pairwise_insertSorted (x : String) : ∀ (l : List String),
    l.Pairwise (fun a b => strLeB a b = true) →
    (insertSorted x l).Pairwise (fun a b => strLeB a b = true) := by
  intro l
  induction l with
  | nil => intro _; simp [insertSorted]
  | cons y ys ih =>
    intro hp
    rw [List.pairwise_cons] at hp
    obtain ⟨hy, hys⟩ := hp
    by_cases hx : strLeB x y = true
    · simp only [insertSorted, if_pos hx]
      rw [List.pairwise_cons]
      refine ⟨?_, ?_⟩
      · intro z hz
        rcases List.mem_cons.mp hz with rfl | hz'
        · exact hx
        · exact strLeB_trans hx (hy z hz')
      · rw [List.pairwise_cons]; exact ⟨hy, hys⟩
    · simp only [insertSorted, if_neg hx]
      rw [List.pairwise_cons]
      refine ⟨?_, ih hys⟩
      intro z hz
      rcases mem_insertSorted hz with h0 | hz'
      · rw [h0]
        rcases strLeB_total x y with h | h
        · exact absurd h hx
        · exact h
      · exact hy z hz'

theorem pairwise_pySorted (l : List String) :
    (pySorted l).Pairwise (fun a b => strLeB a b = true) := by
  induction l with
  | nil => simp [pySorted]
  | cons x xs ih => exact pairwise_insertSorted x (pySorted xs) ih

/-! ## Claim C2 -/

/-- Claim C2 counterexample: the path `resource.language.en_gb/langinfo.xml`
satisfies the claimed relevance condition (contains `resource.language.` and
its filename ends with `langinfo.xml`), yet the binary classifier
`is_po_modified` — one of the two functions the claim describes — builds an
empty payload and reports `False` for it. -/
theorem c2_classifier_counterexample :
    pyIn "resource.language." "resource.language.en_gb/langinfo.xml" = true ∧
    pyEndsWith "resource.language.en_gb/langinfo.xml" "langinfo.xml" = true ∧
    Binary.is_po_modified_payload ["resource.language.en_gb/langinfo.xml"] = [] ∧
    Binary.is_po_modified ["resource.language.en_gb/langinfo.xml"] = false ∧
    RepoResources.get_addon_folders ["resource.language.en_gb/langinfo.xml"] =
      ["resource.language.en_gb"] := by
  decide

/-- Claim C2 as amended: the repo-resources classifier marks a path as
relevant iff it contains `resource.language.` and ends with `strings.po` or
`langinfo.xml`, while the binary classifier `is_po_modified` accepts the
`strings.po` suffix only; on the claim's example both consider exactly the
two language units and not the unrelated file. -/
theorem c2_classifier_amended :
    (∀ files : List String,
      Binary.is_po_modified_payload files =
        (files.filter (fun f => pyIn "resource.language." f && pyEndsWith f "strings.po")).map
          (fun f => lastPathSeg (os_path_split f).1) ∧
      RepoResources.get_addon_folders_payload files =
        (files.filter (fun f => pyIn "resource.language." f &&
            (pyEndsWith f "strings.po" || pyEndsWith f "langinfo.xml"))).map
          (fun f => firstPathSeg (os_path_split f).1)) ∧
    RepoResources.get_addon_folders
      ["resource.language.en_gb/resources/strings.po",
       "resource.language.en_us/resources/strings.po",
       "unrelated/file.txt"] = ["resource.language.en_gb", "resource.language.en_us"] ∧
    Binary.is_po_modified
      ["resource.language.en_gb/resources/strings.po",
       "resource.language.en_us/resources/strings.po",
       "unrelated/file.txt"] = true := by
  refine ⟨?_, by decide, by decide⟩
  intro files
  constructor
  · exact (foldl_payload (fun f => pyIn "resource.language." f && pyEndsWith f "strings.po")
      (fun f => lastPathSeg (os_path_split f).1) files []).trans (List.nil_append _)
  · exact (foldl_payload (fun f => pyIn "resource.language." f &&
        (pyEndsWith f "strings.po" || pyEndsWith f "langinfo.xml"))
      (fun f => firstPathSeg (os_path_split f).1) files []).trans (List.nil_append _)

/-! ## Claim C10 -/

/-- Modelled from the claim's words, for comparison only: removal of the
`resource.language.` prefix — rather than of every occurrence — from a
folder name. -/
def stripPrefixOnce (pre s : String) : String :=
  if startsWithL s.toList pre.toList then (s.toList.drop pre.toList.length).asString else s

/-- Claim C10 counterexample: on the changed file
`xresource.language.en/strings.po` the matched folder name is
`xresource.language.en`, which does not start with `resource.language.`;
prefix removal as claimed would leave it unchanged, but `modified_languages`
performs `str.replace` and deletes the inner occurrence, returning `xen`. -/
theorem c10_modified_languages_counterexample :
    Binary.modified_languages ["xresource.language.en/strings.po"] = "xen" ∧
    lastPathSeg (os_path_split "xresource.language.en/strings.po").1 =
      "xresource.language.en" ∧
    String.intercalate ", " (pySorted
      [stripPrefixOnce "resource.language." "xresource.language.en"]) =
      "xresource.language.en" ∧
    ¬ ("xen" = "xresource.language.en") := by
  decide

/-- Claim C10 as amended: `modified_languages` maps each relevant changed
file to its parent-folder name with every occurrence of the substring
`resource.language.` removed (`str.replace`, not only a prefix strip), joins
the names with `', '` in ascending code-point order, and does not
deduplicate — a duplicated changed path yields a repeated name. -/
theorem c10_modified_languages_amended :
    (∀ files : List String,
      Binary.modified_languages files = String.intercalate ", "
        (pySorted ((files.filter
            (fun f => pyIn "resource.language." f && pyEndsWith f "strings.po")).map
          (fun f => pyReplace (lastPathSeg (os_path_split f).1) "resource.language." "")))) ∧
    (∀ l : List String, (pySorted l).Pairwise (fun a b => strLeB a b = true)) ∧
    Binary.modified_languages
      ["a/resource.language.en_gb/strings.po", "a/resource.language.en_gb/strings.po"] =
      "en_gb, en_gb" := by
  refine ⟨?_, pairwise_pySorted, by decide⟩
  intro files
  exact congrArg (fun l => String.intercalate ", " (pySorted l))
    ((foldl_payload (fun f => pyIn "resource.language." f && pyEndsWith f "strings.po")
      (fun f => pyReplace (lastPathSeg (os_path_split f).1) "resource.language." "")
      files []).trans (List.nil_append _))

/-! ## Lemmas about the manifest patcher -/

theorem version_attr_toList_ne_nil (v : String) : ¬ (version_attr v).toList.isEmpty := by
  simp only [version_attr, toList_append, List.isEmpty_iff, List.append_eq_nil]
  intro hcon
  exact absurd hcon.1.1 (by decide)

/-- A `write` outcome of the repo-resources patch step always carries content
different from the manifest it read. -/
theorem rr_step_write_ne (xml s : String)
    (h : RepoResources.update_addon_versions_step xml = RepoResources.RRStep.write s) :
    ¬ (s = xml) := by
  unfold RepoResources.update_addon_versions_step at h
  split at h
  · simp at h
  · split at h
    · simp at h
    · split at h
      · simp at h
      · simp only [RepoResources.RRStep.write.injEq] at h
        rename_i hneq
        intro hcon
        subst hcon
        exact hneq h.symm

/-- `writeAddonXml` events never come from the classifier prints. -/
theorem write_not_mem_po_events (chg : List String) (s : String) :
    Binary.BEvent.writeAddonXml s ∉ Binary.is_po_modified_events chg := by
  unfold Binary.is_po_modified_events
  by_cases h : (Binary.is_po_modified_payload chg).isEmpty
  · rw [if_pos h]; simp
  · rw [if_neg h]; simp

/-! ## Claim C4 -/

/-- Claim C4: if replacing `version="<old>"` by `version="<new>"` leaves the
manifest text unchanged, the binary patcher reports the no-op by returning
`''`; in the repo-resources loop every `writeAddonXml` event carries content
that differs from what was read, so a write-back occurs only when the
replaced text actually differs; and in the binary driver a run whose
replacement is ineffective produces no manifest write at all. -/
theorem c4_patcher_writes_only_changes :
    (∀ xml old new : String,
      pyReplace xml (version_attr old) (version_attr new) = xml →
      Binary.update_xml_version xml old new = "") ∧
    (∀ xml s : String,
      RepoResources.update_addon_versions_step xml = RepoResources.RRStep.write s →
      ¬ (s = xml)) ∧
    (∀ (folders : List String) (env : String → String) (f s : String),
      RepoResources.REvent.writeAddonXml f s ∈
        (RepoResources.update_addon_versions_events folders env).1 →
      ¬ (s = env f)) ∧
    (∀ (jsonPath : String) (chg : List String) (env : Binary.BinEnv)
        (uc ad un : Bool) (today : String),
      (∀ nv, increment_version (Binary.current_version env.xml_content) = some nv →
        Binary.update_xml_version env.xml_content (Binary.current_version env.xml_content) nv = "") →
      ∀ s, Binary.BEvent.writeAddonXml s ∈ (Binary.main jsonPath chg env uc ad un today).2 →
      False) := by
  refine ⟨?_, fun xml s h => rr_step_write_ne xml s h, ?_, ?_⟩
  · intro xml old new h
    unfold Binary.update_xml_version
    rw [if_pos h.symm]
  · intro folders env
    induction folders with
    | nil =>
      intro f s h
      simp [RepoResources.update_addon_versions_events] at h
    | cons g rest ih =>
      intro f s h
      unfold RepoResources.update_addon_versions_events at h
      cases hstep : RepoResources.update_addon_versions_step (env g) with
      | noVersion =>
        rw [hstep] at h
        simp only [List.mem_cons] at h
        rcases h with h | h | h
        · exact absurd h (by simp)
        · exact absurd h (by simp)
        · exact ih f s h
      | incError =>
        rw [hstep] at h
        simp at h
      | unmodified =>
        rw [hstep] at h
        simp only [List.mem_cons] at h
        rcases h with h | h | h
        · exact absurd h (by simp)
        · exact absurd h (by simp)
        · exact ih f s h
      | write w =>
        rw [hstep] at h
        simp only [List.mem_cons] at h
        rcases h with h | h | h
        · exact absurd h (by simp)
        · simp only [RepoResources.REvent.writeAddonXml.injEq] at h
          rw [h.1]
          rw [h.2]
          exact rr_step_write_ne (env g) w hstep
        · exact ih f s h
  · intro jsonPath chg env uc ad un today hupd s hmem
    unfold Binary.main at hmem
    cases h1 : pyEndsWith jsonPath ".json" with
    | false => rw [h1] at hmem; simp at hmem
    | true =>
      rw [h1] at hmem
      cases h2 : Binary.is_po_modified chg with
      | false =>
        rw [h2] at hmem
        simp only [Bool.not_true, Bool.not_false, Bool.false_eq_true, if_false, if_true,
          List.mem_append] at hmem
        rcases hmem with hmem | hmem
        · exact write_not_mem_po_events chg s hmem
        · simp at hmem
      | true =>
        rw [h2] at hmem
        cases h3 : env.addon_xml_found with
        | false =>
          rw [h3] at hmem
          simp only [Bool.not_true, Bool.not_false, Bool.false_eq_true, if_false, if_true] at hmem
          exact write_not_mem_po_events chg s hmem
        | true =>
          rw [h3] at hmem
          simp only [Bool.not_true, Bool.not_false, Bool.false_eq_true, if_false, if_true] at hmem
          split at hmem
          · by_cases h4 : Binary.current_version env.xml_content = ""
            · rw [if_pos h4] at hmem
              simp only [List.mem_append, List.mem_cons] at hmem
              rcases hmem with hmem | hmem
              · exact write_not_mem_po_events chg s hmem
              · simp at hmem
            · rw [if_neg h4] at hmem
              simp only [List.mem_append, List.mem_cons] at hmem
              rcases hmem with hmem | hmem
              · exact write_not_mem_po_events chg s hmem
              · simp at hmem
          · rename_i nv hinc
            rw [if_pos (hupd nv hinc)] at hmem
            simp only [List.mem_append, List.mem_cons] at hmem
            rcases hmem with hmem | hmem
            · exact write_not_mem_po_events chg s hmem
            · simp at hmem

/-- Witness for C4: a manifest without the old version attribute is reported
as unmodified; a reachable `write` outcome differs from its input; a
concrete loop write event differs from the manifest read; and a binary run
that cannot parse its version produces no manifest write. -/
theorem c4_patcher_writes_only_changes_witness :
    (pyReplace "<a/>" (version_attr "1.0.0") (version_attr "1.0.1") = "<a/>" ∧
      Binary.update_xml_version "<a/>" "1.0.0" "1.0.1" = "") ∧
    (RepoResources.update_addon_versions_step "<addon version=\"1.0.0\"/>" =
        RepoResources.RRStep.write "<addon version=\"1.0.1\"/>" ∧
      ¬ ("<addon version=\"1.0.1\"/>" = "<addon version=\"1.0.0\"/>")) ∧
    (RepoResources.REvent.writeAddonXml "a" "<addon version=\"1.0.1\"/>" ∈
        (RepoResources.update_addon_versions_events ["a"]
          (fun _ => "<addon version=\"1.0.0\"/>")).1 ∧
      ¬ ("<addon version=\"1.0.1\"/>" = "<addon version=\"1.0.0\"/>")) ∧
    ((∀ nv, increment_version (Binary.current_version "<addon version=\"1.0\"/>") = some nv →
        Binary.update_xml_version "<addon version=\"1.0\"/>"
          (Binary.current_version "<addon version=\"1.0\"/>") nv = "") ∧
      ∀ s, Binary.BEvent.writeAddonXml s ∈
        (Binary.main "files.json" ["resource.language.en_gb/strings.po"]
          ⟨true, "<addon version=\"1.0\"/>", true, ""⟩ false false false "").2 → False) := by
  have hvac : ∀ nv, increment_version (Binary.current_version "<addon version=\"1.0\"/>") = some nv →
      Binary.update_xml_version "<addon version=\"1.0\"/>"
        (Binary.current_version "<addon version=\"1.0\"/>") nv = "" := by
    intro nv h
    rw [show increment_version (Binary.current_version "<addon version=\"1.0\"/>") = none
      from by decide] at h
    exact Option.noConfusion h
  refine ⟨⟨by decide, ?_⟩, ⟨by decide, by decide⟩, ⟨by decide, by decide⟩, hvac, ?_⟩
  · exact c4_patcher_writes_only_changes.1 "<a/>" "1.0.0" "1.0.1" (by decide)
  · exact fun s hmem =>
      c4_patcher_writes_only_changes.2.2.2 "files.json" ["resource.language.en_gb/strings.po"]
        ⟨true, "<addon version=\"1.0\"/>", true, ""⟩ false false false "" hvac s hmem

/-! ## Claim C5 -/

/-- Claim C5: the bump is idempotent for a fixed old/new pair — once the
first application has removed every `version="<old>"` occurrence, applying
the same replacement again leaves the content unchanged, and
`update_xml_version` reports the second pass as a no-op (`''`, so the file
is not rewritten); no exception is involved. -/
theorem c5_bump_idempotent (xml old new : String)
    (h : pyIn (version_attr old)
      (pyReplace xml (version_attr old) (version_attr new)) = false) :
    pyReplace (pyReplace xml (version_attr old) (version_attr new))
        (version_attr old) (version_attr new) =
      pyReplace xml (version_attr old) (version_attr new) ∧
    Binary.update_xml_version
      (pyReplace xml (version_attr old) (version_attr new)) old new = "" := by
  have hrep := pyReplace_no_occ _ (version_attr old) (version_attr new)
    (version_attr_toList_ne_nil old) h
  refine ⟨hrep, ?_⟩
  unfold Binary.update_xml_version
  rw [if_pos hrep.symm]

/-- Witness for C5 at a concrete manifest: after the first bump the old
attribute is gone and the second pass reports `''`. -/
theorem c5_bump_idempotent_witness :
    pyIn (version_attr "1.0.0")
      (pyReplace "<addon version=\"1.0.0\"/>" (version_attr "1.0.0") (version_attr "1.0.1")) =
      false ∧
    Binary.update_xml_version
      (pyReplace "<addon version=\"1.0.0\"/>" (version_attr "1.0.0") (version_attr "1.0.1"))
      "1.0.0" "1.0.1" = "" :=
  ⟨by decide,
   (c5_bump_idempotent "<addon version=\"1.0.0\"/>" "1.0.0" "1.0.1" (by decide)).2⟩

/-! ## Claim C9 -/

/-- Claim C9 (implicit): the version substitution is a global `str.replace`:
when the manifest splits on `version="<old>"` into three parts (two
occurrences), both occurrences are rewritten to `version="<new>"`; in
particular a second element such as an `<import>` carrying the identical
version attribute is rewritten as well. -/
theorem c9_replace_all_occurrences :
    (∀ (xml old new : String) (a b c : List Char),
      splitOnL xml.toList (version_attr old).toList = [a, b, c] →
      pyReplace xml (version_attr old) (version_attr new) =
        (a ++ (version_attr new).toList ++ b ++ (version_attr new).toList ++ c).asString) ∧
    Binary.update_xml_version
      "<addon id=\"a\" version=\"1.0.0\"><import addon=\"b\" version=\"1.0.0\"/></addon>"
      "1.0.0" "1.0.1" =
      "<addon id=\"a\" version=\"1.0.1\"><import addon=\"b\" version=\"1.0.1\"/></addon>" := by
  refine ⟨?_, by decide⟩
  intro xml old new a b c h
  unfold pyReplace replaceAllL
  rw [h, intercalate_triple]

/-- Witness for C9 on a text with two occurrences of the attribute. -/
theorem c9_replace_all_occurrences_witness :
    splitOnL ("x version=\"1\" y version=\"1\" z").toList (version_attr "1").toList =
      [("x ").toList, (" y ").toList, (" z").toList] ∧
    pyReplace "x version=\"1\" y version=\"1\" z" (version_attr "1") (version_attr "2") =
      (("x ").toList ++ (version_attr "2").toList ++ (" y ").toList ++
        (version_attr "2").toList ++ (" z").toList).asString :=
  ⟨by decide,
   c9_replace_all_occurrences.1 "x version=\"1\" y version=\"1\" z" "1" "2" _ _ _ (by decide)⟩

/-! ## Claim C7 -/

/-- The `r+`/`seek(0)` prepend: writing `entry + content` from position 0
over a file whose previous content was `content` yields exactly
`entry ++ content`. -/
theorem write_changelog_eq (entry content : String) :
    Binary.write_changelog entry content = entry ++ content := by
  unfold Binary.write_changelog Binary.fileWriteAt
  rw [List.take_zero, List.nil_append, Nat.zero_add,
    List.drop_eq_nil_of_le (by simp), List.append_nil, ← toList_append, asString_toList]

/-- Claim C7: the changelog prepend is unconditional — after the write the
file equals the new entry followed by the exact previous content (in both
scripts), and a second call with the same entry prepends it again. -/
theorem c7_changelog_prepend_unconditional (entry content : String) :
    Binary.write_changelog entry content = entry ++ content ∧
    RepoResources.update_changelogs_write entry content = entry ++ content ∧
    Binary.write_changelog entry (Binary.write_changelog entry content) =
      entry ++ (entry ++ content) := by
  refine ⟨write_changelog_eq entry content, write_changelog_eq entry content, ?_⟩
  rw [write_changelog_eq, write_changelog_eq]

/-! ## Claim C6 -/

/-- Modelled from the claim's words, for comparison only: insertion of the
entry after the first `<news>` occurrence alone, followed by the same
cleanup pass. -/
def insert_news_first (xml entry : String) : String :=
  pyReplace
    ((match findSub xml.toList ("<news>".toList) with
      | none => xml.toList
      | some i =>
        xml.toList.take i ++ ("<news>\n" ++ entry).toList ++ xml.toList.drop (i + 6)).asString)
    "\n\n\n" "\n\n"

/-- Claim C6 counterexample: on a manifest with two `<news>` tags the code's
global `str.replace` inserts the entry after both occurrences, so the result
differs from insertion after the first occurrence only. -/
theorem c6_insert_news_counterexample :
    Binary.insert_news "<news>a</news><news>b</news>" "E" =
      "<news>\nEa</news><news>\nEb</news>" ∧
    insert_news_first "<news>a</news><news>b</news>" "E" =
      "<news>\nEa</news><news>b</news>" ∧
    ¬ (Binary.insert_news "<news>a</news><news>b</news>" "E" =
       insert_news_first "<news>a</news><news>b</news>" "E") := by
  decide

/-- Claim C6 as amended: `insert_news` inserts the entry immediately after
every `<news>` occurrence (a global replace — equal to insertion after the
first occurrence when the manifest contains at most one `<news>`), then runs
one left-to-right replace-all of `\n\n\n` by `\n\n`; the claim's example
yields exactly the claimed output. -/
theorem c6_insert_news_amended :
    (∀ (xml entry : String) (a b : List Char),
      splitOnL xml.toList ("<news>".toList) = [a, b] →
      Binary.insert_news xml entry =
        pyReplace (a ++ ("<news>\n" ++ entry).toList ++ b).asString "\n\n\n" "\n\n") ∧
    (∀ (xml entry : String) (a b c : List Char),
      splitOnL xml.toList ("<news>".toList) = [a, b, c] →
      Binary.insert_news xml entry =
        pyReplace (a ++ ("<news>\n" ++ entry).toList ++ b ++
          ("<news>\n" ++ entry).toList ++ c).asString "\n\n\n" "\n\n") ∧
    Binary.insert_news "<news>\n</news>" "v1.0.1\n- notes\n\n" =
      "<news>\nv1.0.1\n- notes\n\n</news>" := by
  refine ⟨?_, ?_, by decide⟩
  · intro xml entry a b h
    unfold Binary.insert_news
    congr 1
    unfold pyReplace replaceAllL
    rw [h, intercalate_pair]
  · intro xml entry a b c h
    unfold Binary.insert_news
    congr 1
    unfold pyReplace replaceAllL
    rw [h, intercalate_triple]

/-- Witness for C6 (amended) at a one-`<news>` manifest. -/
theorem c6_insert_news_amended_witness :
    splitOnL ("<news></news>").toList ("<news>".toList) = [[], ("</news>").toList] ∧
    Binary.insert_news "<news></news>" "E\n" =
      pyReplace ([] ++ ("<news>\n" ++ "E\n").toList ++ ("</news>").toList).asString
        "\n\n\n" "\n\n" :=
  ⟨by decide,
   c6_insert_news_amended.1 "<news></news>" "E\n" [] ("</news>").toList (by decide)⟩

/-! ## Claim C3 -/

/-- Claim C3 counterexample: a run of the binary driver on a manifest with
no parseable version terminates with exit code 1 — fatally — although the
claim says a missing version never terminates the run fatally. -/
theorem c3_fatal_counterexample :
    Binary.current_version "<xml/>" = "" ∧
    Binary.main "files.json" ["resource.language.en_gb/strings.po"]
      ⟨true, "<xml/>", true, ""⟩ false false false "" =
      (1, [Binary.BEvent.print "Files were modified in the following languages:",
           Binary.BEvent.print "\tresource.language.en_gb",
           Binary.BEvent.readAddonXml,
           Binary.BEvent.print "Unable to determine the current version. exiting..."]) := by
  decide

/-- Claim C3 as amended: when the manifest has no regex match, version
parsing returns `''`; the repo-resources driver treats this as recoverable —
it prints the skip message and continues the loop on the remaining units —
while the binary driver exits fatally with code 1. -/
theorem c3_version_not_found (xml : String) (h : searchAddonVersion xml.toList = none) :
    Binary.current_version xml = "" ∧
    RepoResources.update_addon_versions_step xml = RepoResources.RRStep.noVersion ∧
    (∀ (f : String) (rest : List String) (env : String → String), env f = xml →
      RepoResources.update_addon_versions_events (f :: rest) env =
        (RepoResources.REvent.readAddonXml f ::
          RepoResources.REvent.print "Unable to determine current version... skipping." ::
          (RepoResources.update_addon_versions_events rest env).1,
         (RepoResources.update_addon_versions_events rest env).2)) ∧
    (∀ (jsonPath : String) (chg : List String) (env : Binary.BinEnv)
        (uc ad un : Bool) (today : String),
      pyEndsWith jsonPath ".json" = true → Binary.is_po_modified chg = true →
      env.addon_xml_found = true → env.xml_content = xml →
      Binary.main jsonPath chg env uc ad un today =
        (1, Binary.is_po_modified_events chg ++
          [Binary.BEvent.readAddonXml,
           Binary.BEvent.print "Unable to determine the current version. exiting..."])) := by
  have hcur : Binary.current_version xml = "" := by
    unfold Binary.current_version
    rw [h]
  have hstep : RepoResources.update_addon_versions_step xml = RepoResources.RRStep.noVersion := by
    unfold RepoResources.update_addon_versions_step
    rw [h]
  refine ⟨hcur, hstep, ?_, ?_⟩
  · intro f rest env hf
    have hstepf : RepoResources.update_addon_versions_step (env f) =
        RepoResources.RRStep.noVersion := by rw [hf]; exact hstep
    simp only [RepoResources.update_addon_versions_events, hstepf]
  · intro jsonPath chg env uc ad un today h1 h2 h3 hxml
    unfold Binary.main
    rw [h1, h2, h3, hxml, hcur]
    simp only [Bool.not_true, Bool.false_eq_true, if_false, Bool.not_false, if_true]
    rw [show increment_version "" = none from by decide]

/-- Witness for C3 (amended): a concrete unit without a version is skipped
and the loop continues; the binary driver's fatal exit is instantiated. -/
theorem c3_version_not_found_witness :
    searchAddonVersion ("<xml/>").toList = none ∧
    RepoResources.update_addon_versions_events ["a"] (fun _ => "<xml/>") =
      (RepoResources.REvent.readAddonXml "a" ::
        RepoResources.REvent.print "Unable to determine current version... skipping." ::
        (RepoResources.update_addon_versions_events [] (fun _ => "<xml/>")).1,
       (RepoResources.update_addon_versions_events [] (fun _ => "<xml/>")).2) :=
  ⟨by decide,
   (c3_version_not_found "<xml/>" (by decide)).2.2.1 "a" [] (fun _ => "<xml/>") rfl⟩

/-! ## Claim C8 -/

/-- Claim C8: when classification yields no affected units, each driver
prints its `No modified … found` message and terminates with exit code 0;
the whole trace consists of prints only — no manifest or changelog file is
read or mutated. -/
theorem c8_no_affected_units (jsonPath : String) (chg : List String) (env : Binary.BinEnv)
    (uc ad un : Bool) (today : String) (envR : String → String)
    (hjson : pyEndsWith jsonPath ".json" = true) :
    (Binary.is_po_modified chg = false →
      Binary.main jsonPath chg env uc ad un today =
        (0, [Binary.BEvent.print "No modified languages found."])) ∧
    (RepoResources.get_addon_folders chg = [] →
      RepoResources.main true chg envR =
        (0, [RepoResources.REvent.print "Files were modified in the following add-ons:",
             RepoResources.REvent.print "No modified add-ons found."])) := by
  constructor
  · intro h
    have hemp : (Binary.is_po_modified_payload chg).isEmpty = true := by
      unfold Binary.is_po_modified at h
      simpa using h
    unfold Binary.main
    rw [hjson, h]
    simp only [Bool.not_true, Bool.false_eq_true, if_false, Bool.not_false, if_true]
    unfold Binary.is_po_modified_events
    rw [if_pos hemp]
    simp
  · intro h
    unfold RepoResources.main RepoResources.get_addon_folders_events
    rw [h]
    simp

/-- Witness for C8 on the empty changed-file list. -/
theorem c8_no_affected_units_witness :
    (pyEndsWith "files.json" ".json" = true ∧
      Binary.is_po_modified ([] : List String) = false ∧
      RepoResources.get_addon_folders ([] : List String) = []) ∧
    Binary.main "files.json" [] ⟨true, "", true, ""⟩ false false false "" =
      (0, [Binary.BEvent.print "No modified languages found."]) ∧
    RepoResources.main true [] (fun _ => "") =
      (0, [RepoResources.REvent.print "Files were modified in the following add-ons:",
           RepoResources.REvent.print "No modified add-ons found."]) :=
  ⟨⟨by decide, by decide, by decide⟩,
   (c8_no_affected_units "files.json" [] ⟨true, "", true, ""⟩ false false false ""
     (fun _ => "") (by decide)).1 (by decide),
   (c8_no_affected_units "files.json" [] ⟨true, "", true, ""⟩ false false false ""
     (fun _ => "") (by decide)).2 (by decide)⟩
